import Mathlib

/-!
# Verification of the lottery-web comment-lottery core

Shallow embedding of the lottery-web repository's data model and operations:

* `models/comment.py` — `Comment`, `extract_mentions`, `contains_keyword`,
  `mention_count`;
* `models/lottery_result.py` — `LotteryResult`, `add_participant`,
  `filter_eligible_participants`, `_is_eligible`, `conduct_lottery`;
* `services/lottery/lottery_engine.py` — `LotteryEngine.conduct_lottery`,
  `_validate_parameters`, `_scrape_comments`, `_is_valid_comment`;
* `services/scrapers/threads_scraper.py` — `_deduplicate_comments`,
  `validate_url`;
* `services/scrapers/instagram_scraper.py` — `validate_url`;
* `services/scrapers/scraper_factory.py` — `detect_platform`,
  `is_supported_url`;
* `services/scrapers/base_scraper.py` — `_make_request` retry loop;
* `auth/auth_manager.py` — `_verify_authentication`.

Python machine-independent semantics is modelled directly: strings are Lean
`String`s, `int` is `Int` where negative values are reachable and `Nat`
otherwise, exceptions are `Except`/`Option`, and the ambient `random` module
state is threaded explicitly.  External collaborators (the network, the
Selenium driver, `random.sample`'s underlying Mersenne-Twister stream) are
modelled by oracles or by a concrete deterministic generator, documented at
each definition.
-/

namespace LotteryWeb

/-- Model of `startsWith` on character lists. -/
def listStartsWith : List Char → List Char → Bool
  | [], _ => true
  | _ :: _, [] => false
  | p :: ps, c :: cs => p == c && listStartsWith ps cs

/-- Occurrence of `pat` as a contiguous run of `s`. -/
def listOccurs (pat : List Char) : List Char → Bool
  | [] => listStartsWith pat []
  | c :: cs => listStartsWith pat (c :: cs) || listOccurs pat cs

/-- Substring containment, modelling Python's `sub in s`. -/
def strContains (s pat : String) : Bool :=
  listOccurs pat.toList s.toList

/-- Python `str.lower()` on the character sequence.  Every lowercasing in
the verified code is applied to ASCII usernames, URLs or indicator phrases
(the CJK indicator phrases have no case), where `Char.toLower` agrees with
Python. -/
def pyLower (s : String) : String :=
  ⟨s.data.map Char.toLower⟩

/-- Python `str.strip()`: remove leading and trailing whitespace. -/
def pyStrip (s : String) : String :=
  ⟨((s.data.dropWhile Char.isWhitespace).reverse.dropWhile
      Char.isWhitespace).reverse⟩

/-- Model of `models/comment.py` — the fields of `Comment` that the verified
operations read: `id`, `username` and `content`.  The remaining fields
(`avatar_url`, `timestamp`, `platform`, `post_url`, `likes_count`,
`replies_count`) are carried by the Python dataclass but never inspected by
mention extraction, eligibility, deduplication or validity checking, so they
are omitted from the embedding.  The mutable `mentions` cache is not carried
either: `extract_mentions` is a pure function of `username` and `content`,
and every eligibility check (`_is_eligible` mode 3) recomputes it before
reading `mention_count`. -/
structure Comment where
  id : String
  username : String
  content : String
  deriving DecidableEq, Repr

/-- Characters matched by the character class `[a-zA-Z0-9_\.]` of the
mention regex in `Comment.extract_mentions`. -/
def mentionChar (c : Char) : Bool :=
  c.isAlpha || c.isDigit || c == '_' || c == '.'

/-- Scanner state machine for `re.findall(r'@([a-zA-Z0-9_\.]+)', content)`:
`run` is `none` outside a candidate match and `some acc` (accumulated
capture-group characters, reversed) after an `@`.  A maximal nonempty run of
mention characters after an `@` is one match (the capture group, without the
`@`); matches are non-overlapping and scanning resumes at the character that
ended the run, exactly Python `re` semantics for this greedy pattern. -/
def findMentionsGo : Option (List Char) → List Char → List String
  | none, [] => []
  | some run, [] => if run.isEmpty then [] else [String.mk run.reverse]
  | none, c :: rest =>
    if c = '@' then findMentionsGo (some []) rest
    else findMentionsGo none rest
  | some run, c :: rest =>
    if mentionChar c then findMentionsGo (some (c :: run)) rest
    else if run.isEmpty then
      if c = '@' then findMentionsGo (some []) rest
      else findMentionsGo none rest
    else
      String.mk run.reverse ::
        (if c = '@' then findMentionsGo (some []) rest
         else findMentionsGo none rest)

/-- All capture groups of `re.findall(r'@([a-zA-Z0-9_\.]+)', content)` in
match order. -/
def findMentions (content : List Char) : List String :=
  findMentionsGo none content

/-- Order-preserving duplicate removal keeping the first occurrence of each
element.  Python's `list(set(xs))` yields the elements of `set(xs)` — each
distinct element exactly once — in a hash-dependent, implementation-defined
order; the embedding fixes first-occurrence order as the representative.
Theorems about `extract_mentions` therefore only use order-insensitive
consequences (membership, `Nodup`). -/
def pySetListAux (seen : List String) : List String → List String
  | [] => []
  | x :: xs =>
    if x ∈ seen then pySetListAux seen xs
    else x :: pySetListAux (x :: seen) xs

/-- See `pySetListAux`: duplicate collapse for `list(set(xs))`. -/
def pySetList (l : List String) : List String :=
  pySetListAux [] l

/-- Model of `Comment.extract_mentions`: find all `@`-mention matches in `content`,
collapse duplicates (`list(set(mentions))`), then remove the commenter's own
username when present (`unique_mentions.remove(self.username)`: Python
`list.remove` deletes the first — here only — occurrence, and after `set`
the username occurs at most once; when absent nothing is removed, which is
`List.erase`'s behaviour as well). -/
def extract_mentions (c : Comment) : List String :=
  (pySetList (findMentions c.content.toList)).erase c.username

/-- Model of `Comment.mention_count` as read by `_is_eligible` mode 3: the length of
the freshly extracted mention list (`_is_eligible` calls `extract_mentions`
immediately before reading the count, so the cached-`mentions` shortcut in
`mention_count` never yields a stale value there). -/
def mention_count (c : Comment) : Nat :=
  (extract_mentions c).length

/-- Model of `Comment.contains_keyword` with the default `case_sensitive=False`:
empty keyword always matches, otherwise case-insensitive substring test. -/
def contains_keyword (c : Comment) (keyword : String) : Bool :=
  if keyword = "" then true
  else strContains (pyLower c.content) (pyLower keyword)

/-- Model of `models/lottery_result.py` — `LotteryMode`, whose Python values are the
request strings `"1"`, `"2"`, `"3"`. -/
inductive LotteryMode where
  | keywordFilter   -- "1"
  | allCommenters   -- "2"
  | mentionCount    -- "3"
  deriving DecidableEq, Repr

/-- Model of `LotteryMode(mode)` construction from the request string, defined on the
three values `_validate_parameters` admits. -/
def LotteryMode.ofString : String → Option LotteryMode
  | "1" => some .keywordFilter
  | "2" => some .allCommenters
  | "3" => some .mentionCount
  | _ => none

/-- Model of `models/lottery_result.py` — the fields of `LotteryResult` read or
written by the verified operations.  `id`, `timestamp`, `post_url` and
`platform` are opaque bookkeeping (uuid / wall clock / echoed strings) and
are not carried. `winner_count` is a Python `int` and is kept as `Int`
because the validation claims reason about `winner_count < 1`. -/
structure LotteryResult where
  mode : LotteryMode
  winner_count : Int
  keyword : String
  mention_count_required : Nat
  winners : List Comment := []
  all_participants : List Comment := []
  eligible_participants : List Comment := []
  total_comments : Nat := 0
  total_participants : Nat := 0
  eligible_count : Nat := 0
  deriving DecidableEq, Repr

/-- Model of `LotteryResult.add_participant`: append the comment unless a stored
participant already has the same username (exact string equality). -/
def add_participant (r : LotteryResult) (c : Comment) : LotteryResult :=
  if r.all_participants.any (fun p => p.username == c.username) then r
  else { r with all_participants := r.all_participants ++ [c] }

/-- Model of `LotteryResult._is_eligible`: the per-mode predicate. -/
def is_eligible (r : LotteryResult) (c : Comment) : Bool :=
  match r.mode with
  | .keywordFilter => contains_keyword c r.keyword
  | .allCommenters => true
  | .mentionCount => r.mention_count_required ≤ mention_count c

/-- Model of `LotteryResult.filter_eligible_participants`: rebuild
`eligible_participants` as the order-preserving filter of
`all_participants`, and set `eligible_count` to its length. -/
def filter_eligible_participants (r : LotteryResult) : LotteryResult :=
  let elig := r.all_participants.filter (is_eligible r)
  { r with eligible_participants := elig, eligible_count := elig.length }

/-- State-update function of the pseudo-random generator behind the `random`
module.  CPython uses MT19937; the claims under verification depend only on
the generator being a deterministic function of its state, so the embedding
uses a concrete linear-congruential step as the model of the stream. -/
def randStep (g : Nat) : Nat :=
  (g * 1103515245 + 12345) % 2 ^ 31

/-- Model of `random.sample(population, k)` given generator state `g`: `k` draws
without replacement — each draw picks a position in the remaining
population, removes it, and advances the generator.  Faithful to the
documented contract of `random.sample` (a new `k`-element list of elements
chosen from distinct positions of the population, deterministic once the
generator state is fixed); the position sequence itself is the model's
generator, per `randStep`. -/
def pySample (g : Nat) (l : List Comment) (k : Nat) : List Comment :=
  match k, l with
  | 0, _ => []
  | _ + 1, [] => []
  | k + 1, x :: xs =>
    let pop := x :: xs
    let i := g % pop.length
    pop.get ⟨i, Nat.mod_lt _ (by simp [pop])⟩ ::
      pySample (randStep g) (pop.eraseIdx i) k

/-- The `random.seed(seed)` guard at the top of
`LotteryResult.conduct_lottery`: a non-`None` seed resets the module
generator state to the seed; otherwise the ambient state is kept. -/
def seedState (seed : Option Nat) (g : Nat) : Nat :=
  match seed with
  | some s => s
  | none => g

/-- Model of `LotteryResult.conduct_lottery(seed)`: seed the module generator when a
seed is given (otherwise the ambient state `g` is used), filter eligible
participants, sample `min(winner_count, len(eligible))` winners when that is
positive, and set `total_comments` / `total_participants`.
`total_participants = len(set(p.username ...))` is the number of distinct
usernames, `List.dedup` length in the embedding. -/
def conduct_lottery (r : LotteryResult) (seed : Option Nat) (g : Nat) :
    LotteryResult :=
  let g := seedState seed g
  let r := filter_eligible_participants r
  let available_winners : Int :=
    min r.winner_count (r.eligible_participants.length : Int)
  let winners :=
    if 0 < available_winners then
      pySample g r.eligible_participants available_winners.toNat
    else []
  { r with
    winners := winners
    total_comments := r.all_participants.length
    total_participants := (r.all_participants.map (·.username)).dedup.length }

/-! ## Scraper layer -/

/-- The deduplication key of `ThreadsScraper._deduplicate_comments`:
`(comment.username.lower(), comment.content.lower().strip())`. -/
def dedupKey (c : Comment) : String × String :=
  (pyLower c.username, pyStrip (pyLower c.content))

/-- Loop body of `_deduplicate_comments`: `seen` is the set of keys already
kept; a comment whose key is in `seen` is dropped, otherwise it is kept and
its key recorded. -/
def dedupAux (seen : List (String × String)) : List Comment → List Comment
  | [] => []
  | c :: cs =>
    if dedupKey c ∈ seen then dedupAux seen cs
    else c :: dedupAux (dedupKey c :: seen) cs

/-- Model of `ThreadsScraper._deduplicate_comments`: first occurrence of each
case-insensitive `(username, trimmed content)` key wins, order preserved. -/
def deduplicate_comments (cs : List Comment) : List Comment :=
  dedupAux [] cs

/-- The outcome of `urlparse` on the request URL: the pieces the scrapers
read.  `urlparse` itself is Python standard-library string splitting; the
embedding starts from its output. -/
structure Url where
  netloc : String
  path : String
  deriving DecidableEq, Repr

/-- Model of `ThreadsScraper.THREADS_DOMAINS` (also
`SeleniumThreadsScraper.THREADS_DOMAINS`, the identical list). -/
def THREADS_DOMAINS : List String :=
  ["threads.com", "www.threads.com", "threads.net", "www.threads.net"]

/-- Model of `InstagramScraper.INSTAGRAM_DOMAINS`. -/
def INSTAGRAM_DOMAINS : List String :=
  ["instagram.com", "www.instagram.com"]

/-- Model of `ThreadsScraper.validate_url`: lowercased netloc is one of the Threads
domains and the path contains `/post/`. -/
def threadsValidateUrl (u : Url) : Bool :=
  pyLower u.netloc ∈ THREADS_DOMAINS && strContains u.path "/post/"

/-- Model of `InstagramScraper.validate_url`: lowercased netloc is one of the
Instagram domains and the path contains `/p/` or `/reel/`. -/
def instagramValidateUrl (u : Url) : Bool :=
  pyLower u.netloc ∈ INSTAGRAM_DOMAINS &&
    (strContains u.path "/p/" || strContains u.path "/reel/")

/-- Model of `ScraperFactory.detect_platform`: classify the lowercased netloc, or
fail (`ScrapingError`) on an unsupported domain. -/
def detect_platform (u : Url) : Option String :=
  let domain := pyLower u.netloc
  if strContains domain "threads.com" || strContains domain "threads.net" then
    some "threads"
  else if strContains domain "instagram.com" then some "instagram"
  else none

/-- Model of `ScraperFactory.is_supported_url`: detect the platform, then run the
platform's (non-Selenium) scraper `validate_url`; every failure collapses
to `False`. -/
def is_supported_url (u : Url) : Bool :=
  match detect_platform u with
  | some "threads" => threadsValidateUrl u
  | some "instagram" => instagramValidateUrl u
  | _ => false

/-! ## Lottery engine -/

/-- Model of `LotteryEngine._is_valid_comment`: non-empty username and content,
trimmed content of length ≥ 2, and the username (lowercased) is not one of
the platform/system accounts. -/
def is_valid_comment (c : Comment) : Bool :=
  if c.username = "" || c.content = "" then false
  else if (pyStrip c.content).length < 2 then false
  else if pyLower c.username ∈ ["instagram", "threads", "meta", "facebook"]
    then false
  else true

/-- The parameters of `LotteryEngine.conduct_lottery` /
`_validate_parameters`.  The URL is carried in parsed form (`Url`) together
with an emptiness flag for the `if not url` check (an empty URL string
parses to empty netloc and path). `winner_count` and
`mention_count_required` are Python `int`s, so `Int`. -/
structure EngineParams where
  url : Url
  mode : String
  winner_count : Int
  keyword : String
  mention_count_required : Int
  deriving DecidableEq, Repr

/-- Model of `LotteryEngine._validate_parameters`: the first failing check raises
`ValueError` with its message; `none` means all checks pass.  The `if not
url` guard is the URL-emptiness test on the parsed form. -/
def validate_parameters (p : EngineParams) : Option String :=
  if p.url = ⟨"", ""⟩ then some "URL is required"
  else if ¬ is_supported_url p.url then some "Unsupported URL format"
  else if p.mode ∉ ["1", "2", "3"] then some "Mode must be 1, 2, or 3"
  else if p.winner_count < 1 then some "Winner count must be at least 1"
  else if p.mode = "1" ∧ pyStrip p.keyword = "" then
    some "Keyword is required for mode 1"
  else if p.mode = "3" ∧ p.mention_count_required < 1 then
    some "Mention count must be at least 1 for mode 3"
  else none

/-- Caller-visible failure of `LotteryEngine.conduct_lottery`:
`ValueError` from `_validate_parameters` (raised before the `try` block, so
it propagates to the caller). -/
inductive EngineError where
  | validation (msg : String)
  deriving DecidableEq, Repr

/-- Model of `LotteryEngine._scrape_comments` given the raw comment list produced by
the scrapers (an oracle: `Except` a scraper failure message): filter the raw
comments through `_is_valid_comment`; a scraper failure is re-raised as
`ScrapingError`. -/
def scrape_comments (raw : Except String (List Comment)) :
    Except String (List Comment) :=
  match raw with
  | .error e => .error e
  | .ok comments => .ok (comments.filter is_valid_comment)

/-- The `except Exception` block at the end of `LotteryEngine.conduct_lottery`
(lines 132–139): return the in-scope result with `winners`, `total_comments`,
`total_participants` and `eligible_count` zeroed.  The exception's message is
only logged, never attached to the returned result. -/
def failedResult (r : LotteryResult) : LotteryResult :=
  { r with winners := [], total_comments := 0, total_participants := 0,
           eligible_count := 0 }

/-- Model of `LotteryEngine.conduct_lottery`: validate (a `ValueError` here
propagates), build the result object, then inside `try`: scrape (oracle
`raw`), fail on zero comments, add participants, run the draw, fail on zero
eligible participants.  Every exception inside the `try` — including the
engine's own `ValueError`s carrying the zero-comment / zero-eligible
explanations and any `ScrapingError` — is caught by `except Exception` and
converted to `failedResult`, so those reasons never reach the caller. -/
def engine_conduct_lottery (p : EngineParams)
    (raw : Except String (List Comment)) (seed : Option Nat) (g : Nat) :
    Except EngineError LotteryResult :=
  match validate_parameters p with
  | some msg => .error (.validation msg)
  | none =>
    match LotteryMode.ofString p.mode with
    | none => .error (.validation "unreachable: mode validated")
    | some mode =>
      let r : LotteryResult :=
        { mode := mode, winner_count := p.winner_count,
          keyword := p.keyword,
          mention_count_required := p.mention_count_required.toNat }
      match scrape_comments raw with
      | .error _ => .ok (failedResult r)
      | .ok comments =>
        if comments.isEmpty then .ok (failedResult r)
        else
          let r := comments.foldl add_participant r
          let r := conduct_lottery r seed g
          if r.eligible_count = 0 then .ok (failedResult r)
          else .ok r

/-! ## HTTP transport retry loop -/

/-- One observable run of `BaseScraper._make_request`: whether it returned a
response or raised `ScrapingError`, and the sequence of backoff sleeps
performed between failed attempts (the unconditional inter-request `delay`
after a success is not a backoff sleep and is not recorded). -/
structure RequestTrace where
  ok : Bool
  waits : List ℚ
  deriving DecidableEq, Repr

/-- The `for attempt in range(self.retry_attempts)` loop of `_make_request`,
given the oracle `fails` telling which attempts raise
`requests.RequestException`.  `remaining` counts the attempts still allowed
(so `remaining = 1` means `attempt == self.retry_attempts - 1`, the last
one).  On a failed attempt that is not the last, the code sleeps
`self.delay * (attempt + 1)` (the line commented `# Exponential backoff`);
on the last failed attempt it raises `ScrapingError` (`ok := false`). -/
def makeRequestLoop (delay : ℚ) (fails : Nat → Bool) :
    Nat → Nat → RequestTrace
  | _, 0 => ⟨false, []⟩
  | attempt, remaining + 1 =>
    if fails attempt then
      if remaining = 0 then ⟨false, []⟩
      else
        let rest := makeRequestLoop delay fails (attempt + 1) remaining
        ⟨rest.ok, delay * (attempt + 1) :: rest.waits⟩
    else ⟨true, []⟩

/-- Model of `BaseScraper._make_request` with its retry configuration (default
`retry_attempts = 3`): run the loop from attempt 0 with all
`retry_attempts` attempts remaining. -/
def make_request (retry_attempts : Nat) (delay : ℚ) (fails : Nat → Bool) :
    RequestTrace :=
  makeRequestLoop delay fails 0 retry_attempts

/-! ## Authentication verification heuristic -/

/-- Model of `AuthManager._verify_authentication`'s `login_indicators` list. -/
def login_indicators : List String :=
  ["log in", "sign in", "登入", "登录", "create account", "註冊", "注册"]

/-- Model of `AuthManager._verify_authentication`'s `auth_indicators` list. -/
def auth_indicators : List String :=
  ["profile", "timeline", "feed", "home", "個人資料", "動態", "首頁"]

/-- Model of `sum(1 for indicator in indicators if indicator in page_source)`: the
number of phrases from the list present in the page source. -/
def indicatorCount (indicators : List String) (page : String) : Nat :=
  indicators.countP (fun ind => strContains page ind)

/-- Model of `AuthManager._verify_authentication` on the lowercased current URL and
page source: fail when the URL contains `login` or `auth`; fail when more
than two login-indicator phrases appear; otherwise authenticated iff at
least one auth-indicator phrase appears. -/
def verify_authentication (currentUrl pageSource : String) : Bool :=
  let current_url := pyLower currentUrl
  if strContains current_url "login" || strContains current_url "auth" then
    false
  else
    let page_source := pyLower pageSource
    if 2 < indicatorCount login_indicators page_source then false
    else 0 < indicatorCount auth_indicators page_source

/-! ## Sampling lemmas -/

theorem pySample_cons (g : Nat) (x : Comment) (xs : List Comment) (k : Nat) :
    pySample g (x :: xs) (k + 1) =
      (x :: xs).get ⟨g % (x :: xs).length, Nat.mod_lt _ (by simp)⟩ ::
        pySample (randStep g) ((x :: xs).eraseIdx (g % (x :: xs).length)) k :=
  rfl

/-- Sampling `k ≤ |l|` elements without replacement yields exactly `k`
elements. -/
theorem pySample_length (k : Nat) :
    ∀ (g : Nat) (l : List Comment), k ≤ l.length →
      (pySample g l k).length = k := by
  induction k with
  | zero => intro g l _; rfl
  | succ k ih =>
    intro g l hk
    match l with
    | [] => simp at hk
    | x :: xs =>
      rw [pySample_cons, List.length_cons, ih]
      have hlt : g % (x :: xs).length < (x :: xs).length :=
        Nat.mod_lt _ (by simp)
      rw [List.length_eraseIdx_of_lt hlt]
      simp only [List.length_cons] at hk ⊢
      omega

/-- Every sampled element comes from the population. -/
theorem pySample_mem (k : Nat) :
    ∀ (g : Nat) (l : List Comment) (c : Comment),
      c ∈ pySample g l k → c ∈ l := by
  induction k with
  | zero => intro g l c h; simp [pySample] at h
  | succ k ih =>
    intro g l c h
    match l with
    | [] => simp [pySample] at h
    | x :: xs =>
      rw [pySample_cons] at h
      rcases List.mem_cons.mp h with h | h
      · rw [h]; exact List.get_mem _ _ _
      · exact (List.eraseIdx_sublist (x :: xs) (g % (x :: xs).length)).mem
          (ih _ _ _ h)

/-! ## Field equations for `conduct_lottery` -/

theorem conduct_lottery_all_participants (r : LotteryResult)
    (seed : Option Nat) (g : Nat) :
    (conduct_lottery r seed g).all_participants = r.all_participants := rfl

theorem conduct_lottery_eligible (r : LotteryResult) (seed : Option Nat)
    (g : Nat) :
    (conduct_lottery r seed g).eligible_participants =
      r.all_participants.filter (is_eligible r) := rfl

theorem conduct_lottery_winners (r : LotteryResult) (seed : Option Nat)
    (g : Nat) :
    (conduct_lottery r seed g).winners =
      if 0 < min r.winner_count
          ((r.all_participants.filter (is_eligible r)).length : Int) then
        pySample (seedState seed g) (r.all_participants.filter (is_eligible r))
          (min r.winner_count
            ((r.all_participants.filter (is_eligible r)).length : Int)).toNat
      else [] := rfl

theorem conduct_lottery_total_comments (r : LotteryResult) (seed : Option Nat)
    (g : Nat) :
    (conduct_lottery r seed g).total_comments = r.all_participants.length :=
  rfl

theorem conduct_lottery_total_participants (r : LotteryResult)
    (seed : Option Nat) (g : Nat) :
    (conduct_lottery r seed g).total_participants =
      (r.all_participants.map (·.username)).dedup.length := rfl

/-! ## Claim C1 -/

/-- C1: for every eligible-participant list `E` and `winner_count ≥ 1`,
`LotteryResult.conduct_lottery` produces a winners list of size
`min(winner_count, |E|)`, with winners ⊆ eligible_participants ⊆
all_participants; when `E` is empty the winners list is empty. -/
theorem C1_select_size_and_subsets (r : LotteryResult) (seed : Option Nat)
    (g : Nat) (hw : 1 ≤ r.winner_count) :
    (((conduct_lottery r seed g).winners.length : Int) =
        min r.winner_count
          ((conduct_lottery r seed g).eligible_participants.length : Int)) ∧
    (∀ c ∈ (conduct_lottery r seed g).winners,
        c ∈ (conduct_lottery r seed g).eligible_participants) ∧
    (∀ c ∈ (conduct_lottery r seed g).eligible_participants,
        c ∈ (conduct_lottery r seed g).all_participants) ∧
    ((conduct_lottery r seed g).eligible_participants = [] →
        (conduct_lottery r seed g).winners = []) := by
  rw [conduct_lottery_winners, conduct_lottery_eligible,
    conduct_lottery_all_participants]
  refine ⟨?_, ?_, ?_, ?_⟩
  · by_cases h : 0 < min r.winner_count
        ((r.all_participants.filter (is_eligible r)).length : Int)
    · have hle : (min r.winner_count
          ((r.all_participants.filter (is_eligible r)).length : Int)).toNat ≤
          (r.all_participants.filter (is_eligible r)).length := by omega
      rw [if_pos h, pySample_length _ _ _ hle]
      omega
    · rw [if_neg h]
      simp only [List.length_nil]
      omega
  · intro c hc
    by_cases h : 0 < min r.winner_count
        ((r.all_participants.filter (is_eligible r)).length : Int)
    · rw [if_pos h] at hc
      exact pySample_mem _ _ _ _ hc
    · rw [if_neg h] at hc
      simp at hc
  · intro c hc
    exact List.mem_of_mem_filter hc
  · intro hE
    rw [hE]
    simp only [List.length_nil, Nat.cast_zero]
    rw [if_neg (by omega)]

/-- Concrete instantiation of `C1_select_size_and_subsets`: three
participants, `winner_count = 2`, seed `7`. -/
def rC1 : LotteryResult :=
  { mode := .allCommenters, winner_count := 2, keyword := "",
    mention_count_required := 1,
    all_participants := [⟨"1", "alice", "hello"⟩, ⟨"2", "bob", "hi there"⟩,
      ⟨"3", "carol", "yo"⟩] }

/-- Witness for C1 at `rC1`. -/
theorem C1_select_size_and_subsets_witness :
    (((conduct_lottery rC1 (some 7) 0).winners.length : Int) =
        min rC1.winner_count
          ((conduct_lottery rC1 (some 7) 0).eligible_participants.length :
            Int)) ∧
    (∀ c ∈ (conduct_lottery rC1 (some 7) 0).winners,
        c ∈ (conduct_lottery rC1 (some 7) 0).eligible_participants) ∧
    (∀ c ∈ (conduct_lottery rC1 (some 7) 0).eligible_participants,
        c ∈ (conduct_lottery rC1 (some 7) 0).all_participants) ∧
    ((conduct_lottery rC1 (some 7) 0).eligible_participants = [] →
        (conduct_lottery rC1 (some 7) 0).winners = []) :=
  C1_select_size_and_subsets rC1 (some 7) 0 (by decide)

/-! ## Claim C2 -/

/-- C2: with a non-`None` seed, `LotteryResult.conduct_lottery` is a pure
function of `(participant order, winner_count, seed)`: the ambient generator
state is irrelevant — two runs with the same seed and identical inputs give
the identical winners list (same members, same order) and in fact identical
results. -/
theorem C2_seeded_determinism (r : LotteryResult) (s g g' : Nat) :
    ((conduct_lottery r (some s) g).winners =
        (conduct_lottery r (some s) g').winners) ∧
    conduct_lottery r (some s) g = conduct_lottery r (some s) g' :=
  ⟨rfl, rfl⟩

/-! ## Mention-extraction lemmas -/

theorem pySetListAux_mem (l : List String) :
    ∀ (seen : List String) (m : String),
      m ∈ pySetListAux seen l ↔ m ∈ l ∧ m ∉ seen := by
  induction l with
  | nil => intro seen m; simp [pySetListAux]
  | cons x xs ih =>
    intro seen m
    by_cases hx : x ∈ seen
    · rw [pySetListAux, if_pos hx, ih]
      constructor
      · rintro ⟨h1, h2⟩; exact ⟨List.mem_cons_of_mem _ h1, h2⟩
      · rintro ⟨h1, h2⟩
        rcases List.mem_cons.mp h1 with rfl | h1
        · exact absurd hx h2
        · exact ⟨h1, h2⟩
    · rw [pySetListAux, if_neg hx]
      rw [List.mem_cons, ih]
      constructor
      · rintro (rfl | ⟨h1, h2⟩)
        · exact ⟨List.mem_cons_self _ _, hx⟩
        · exact ⟨List.mem_cons_of_mem _ h1,
            fun hs => h2 (List.mem_cons_of_mem _ hs)⟩
      · rintro ⟨h1, h2⟩
        rcases List.mem_cons.mp h1 with rfl | h1
        · exact Or.inl rfl
        · by_cases hmx : m = x
          · exact Or.inl hmx
          · exact Or.inr ⟨h1, fun hs =>
              (List.mem_cons.mp hs).elim hmx h2⟩

theorem pySetListAux_nodup (l : List String) :
    ∀ seen : List String, (pySetListAux seen l).Nodup := by
  induction l with
  | nil => intro seen; simp [pySetListAux]
  | cons x xs ih =>
    intro seen
    by_cases hx : x ∈ seen
    · rw [pySetListAux, if_pos hx]; exact ih seen
    · rw [pySetListAux, if_neg hx]
      refine List.nodup_cons.mpr ⟨?_, ih _⟩
      intro hmem
      exact ((pySetListAux_mem xs _ x).mp hmem).2 (List.mem_cons_self _ _)

theorem pySetList_mem (l : List String) (m : String) :
    m ∈ pySetList l ↔ m ∈ l := by
  rw [pySetList, pySetListAux_mem]
  simp

theorem pySetList_nodup (l : List String) : (pySetList l).Nodup :=
  pySetListAux_nodup l []

/-! ## Claim C4 -/

/-- C4: `extract_mentions` returns the usernames matched by the `@`-mention
pattern, deduplicated, with the commenter's own username excluded (Python
`list(set(...))` leaves the order implementation-defined, so the statement
is order-insensitive: no-duplicates plus exact membership).  On commenter
`"carol"` with content `"@bob hi @Alice @bob"` the result is exactly the
mention set `{bob, Alice}`. -/
theorem C4_extract_mentions_dedup_self_excluded (c : Comment) :
    (extract_mentions c).Nodup ∧
    (∀ m, m ∈ extract_mentions c ↔
        m ∈ findMentions c.content.toList ∧ m ≠ c.username) ∧
    (∀ m, m ∈ extract_mentions ⟨"c1", "carol", "@bob hi @Alice @bob"⟩ ↔
        m = "bob" ∨ m = "Alice") := by
  have hmem : ∀ (d : Comment) (m : String),
      m ∈ extract_mentions d ↔
        m ∈ findMentions d.content.toList ∧ m ≠ d.username := by
    intro d m
    rw [extract_mentions, (pySetList_nodup _).mem_erase_iff, pySetList_mem]
    tauto
  refine ⟨(pySetList_nodup _).erase _, hmem c, ?_⟩
  intro m
  rw [hmem]
  have hf : findMentions ("@bob hi @Alice @bob").toList =
      ["bob", "Alice", "bob"] := by decide
  show m ∈ findMentions ("@bob hi @Alice @bob").toList ∧ m ≠ "carol" ↔ _
  rw [hf]
  simp only [List.mem_cons, List.not_mem_nil, or_false]
  constructor
  · rintro ⟨(rfl | rfl | rfl), hne⟩
    · exact Or.inl rfl
    · exact Or.inr rfl
    · exact Or.inl rfl
  · rintro (rfl | rfl)
    · exact ⟨Or.inl rfl, by decide⟩
    · exact ⟨Or.inr (Or.inl rfl), by decide⟩

/-! ## Deduplication lemmas -/

theorem dedupAux_congr :
    ∀ (cs : List Comment) (s₁ s₂ : List (String × String)),
      (∀ x, x ∈ s₁ ↔ x ∈ s₂) → dedupAux s₁ cs = dedupAux s₂ cs := by
  intro cs
  induction cs with
  | nil => intro s₁ s₂ _; rfl
  | cons c cs ih =>
    intro s₁ s₂ h
    rw [dedupAux, dedupAux]
    by_cases hc : dedupKey c ∈ s₁
    · rw [if_pos hc, if_pos ((h _).mp hc)]
      exact ih _ _ h
    · rw [if_neg hc, if_neg (fun hx => hc ((h _).mpr hx))]
      congr 1
      refine ih _ _ fun x => ?_
      simp only [List.mem_cons]
      rw [h x]

theorem dedupAux_filterKey :
    ∀ (cs : List Comment) (seen : List (String × String))
      (k : String × String),
      dedupAux (k :: seen) cs =
        dedupAux seen (cs.filter (fun d => dedupKey d != k)) := by
  intro cs
  induction cs with
  | nil => intro seen k; rfl
  | cons c cs ih =>
    intro seen k
    by_cases hck : dedupKey c = k
    · rw [dedupAux, if_pos (by rw [hck]; exact List.mem_cons_self _ _),
        List.filter_cons, if_neg (by simp [hck])]
      exact ih seen k
    · by_cases hcs : dedupKey c ∈ seen
      · rw [dedupAux,
          if_pos (List.mem_cons_of_mem _ hcs),
          List.filter_cons, if_pos (by simp [hck]), dedupAux, if_pos hcs]
        exact ih seen k
      · rw [dedupAux,
          if_neg (by
            intro hmem
            rcases List.mem_cons.mp hmem with h | h
            · exact hck h
            · exact hcs h),
          List.filter_cons, if_pos (by simp [hck]), dedupAux, if_neg hcs]
        congr 1
        rw [dedupAux_congr cs (dedupKey c :: k :: seen) (k :: dedupKey c :: seen)
            (by intro x; simp only [List.mem_cons]; tauto)]
        exact ih (dedupKey c :: seen) k

theorem dedupAux_sublist :
    ∀ (cs : List Comment) (seen : List (String × String)),
      List.Sublist (dedupAux seen cs) cs := by
  intro cs
  induction cs with
  | nil => intro seen; exact List.Sublist.refl _
  | cons c cs ih =>
    intro seen
    rw [dedupAux]
    by_cases h : dedupKey c ∈ seen
    · rw [if_pos h]; exact (ih seen).cons c
    · rw [if_neg h]; exact (ih _).cons₂ c

theorem dedupAux_keys :
    ∀ (cs : List Comment) (seen : List (String × String)),
      ((dedupAux seen cs).map dedupKey).Nodup ∧
      ∀ x ∈ (dedupAux seen cs).map dedupKey, x ∉ seen := by
  intro cs
  induction cs with
  | nil => intro seen; simp [dedupAux]
  | cons c cs ih =>
    intro seen
    rw [dedupAux]
    by_cases h : dedupKey c ∈ seen
    · rw [if_pos h]; exact ih seen
    · rw [if_neg h]
      obtain ⟨h1, h2⟩ := ih (dedupKey c :: seen)
      refine ⟨?_, ?_⟩
      · rw [List.map_cons]
        refine List.nodup_cons.mpr ⟨?_, h1⟩
        intro hmem
        exact h2 _ hmem (List.mem_cons_self _ _)
      · intro x hx
        rw [List.map_cons, List.mem_cons] at hx
        rcases hx with rfl | hx
        · exact h
        · exact fun hxs => h2 x hx (List.mem_cons_of_mem _ hxs)

theorem dedupAux_cover :
    ∀ (cs : List Comment) (seen : List (String × String)) (d : Comment),
      d ∈ cs →
        dedupKey d ∈ seen ∨
          ∃ d', d' ∈ dedupAux seen cs ∧ dedupKey d' = dedupKey d := by
  intro cs
  induction cs with
  | nil => intro seen d h; simp at h
  | cons c cs ih =>
    intro seen d hd
    rw [dedupAux]
    by_cases h : dedupKey c ∈ seen
    · rw [if_pos h]
      rcases List.mem_cons.mp hd with rfl | hd
      · exact Or.inl h
      · exact ih seen d hd
    · rw [if_neg h]
      rcases List.mem_cons.mp hd with rfl | hd
      · exact Or.inr ⟨d, List.mem_cons_self _ _, rfl⟩
      · rcases ih (dedupKey c :: seen) d hd with hmem | ⟨d', hd', hk⟩
        · rcases List.mem_cons.mp hmem with heq | hmem
          · exact Or.inr ⟨c, List.mem_cons_self _ _, heq.symm⟩
          · exact Or.inl hmem
        · exact Or.inr ⟨d', List.mem_cons_of_mem _ hd', hk⟩

/-! ## Claim C5 -/

/-- C5: `ThreadsScraper._deduplicate_comments` keys on the case-insensitive
pair (username, trimmed content): the result is an order-preserving
subsequence of the input (extraction order kept) whose keys are pairwise
distinct, every input comment's key survives, and the one kept is the first
occurrence (dropping all later key-equal comments before deduplicating
changes nothing); and `LotteryResult.add_participant` is idempotent —
registering the same (username, content) participant twice stores it
exactly once. -/
theorem C5_dedup_first_wins_and_idempotent (r : LotteryResult)
    (c c₀ : Comment) (cs cs₀ : List Comment) :
    List.Sublist (deduplicate_comments cs) cs ∧
    ((deduplicate_comments cs).map dedupKey).Nodup ∧
    (∀ d ∈ cs, ∃ d', d' ∈ deduplicate_comments cs ∧
        dedupKey d' = dedupKey d) ∧
    (deduplicate_comments (c₀ :: cs₀) =
      c₀ :: deduplicate_comments
        (cs₀.filter (fun d => dedupKey d != dedupKey c₀))) ∧
    add_participant (add_participant r c) c = add_participant r c := by
  refine ⟨dedupAux_sublist cs [], (dedupAux_keys cs []).1, ?_, ?_, ?_⟩
  · intro d hd
    rcases dedupAux_cover cs [] d hd with h | h
    · simp at h
    · exact h
  · rw [deduplicate_comments, dedupAux, if_neg (List.not_mem_nil _)]
    rw [dedupAux_filterKey]
    rfl
  · by_cases h : r.all_participants.any (fun p => p.username == c.username)
    · have hr : add_participant r c = r := by rw [add_participant, if_pos h]
      rw [hr]
      exact hr
    · have h2 : ((add_participant r c).all_participants.any
          (fun p => p.username == c.username)) = true := by
        rw [add_participant, if_neg h]
        simp only [List.any_append, List.any_cons, List.any_nil,
          Bool.or_false, beq_self_eq_true, Bool.or_true]
      rw [add_participant, if_pos h2]

/-! ## Claim C8 -/

/-- C8: `AuthManager._verify_authentication` returns false immediately when
the lowercased current URL contains a login-path marker (`login` or `auth`);
otherwise it returns true iff the count of authenticated-indicator phrases
in the page text is positive and the count of login-indicator phrases is at
most 2. -/
theorem C8_verify_authentication_heuristic (currentUrl pageSource : String) :
    ((strContains (pyLower currentUrl) "login" ||
        strContains (pyLower currentUrl) "auth") = true →
      verify_authentication currentUrl pageSource = false) ∧
    ((strContains (pyLower currentUrl) "login" ||
        strContains (pyLower currentUrl) "auth") = false →
      (verify_authentication currentUrl pageSource = true ↔
        (0 < indicatorCount auth_indicators (pyLower pageSource) ∧
          indicatorCount login_indicators (pyLower pageSource) ≤ 2))) := by
  constructor
  · intro h
    simp only [verify_authentication]
    rw [if_pos h]
  · intro h
    simp only [verify_authentication]
    rw [if_neg (by rw [h]; exact Bool.false_ne_true)]
    by_cases h2 : 2 < indicatorCount login_indicators (pyLower pageSource)
    · rw [if_pos h2]
      constructor
      · intro hf; exact absurd hf Bool.false_ne_true
      · rintro ⟨_, hle⟩; omega
    · rw [if_neg h2]
      rw [decide_eq_true_eq]
      constructor
      · intro ha; exact ⟨ha, by omega⟩
      · rintro ⟨ha, _⟩; exact ha

/-- Witness for C8: a page passing the heuristic on a non-login URL. -/
theorem C8_verify_authentication_heuristic_witness :
    verify_authentication "https://threads.com/feed" "your profile feed" =
        true ↔
      (0 < indicatorCount auth_indicators
          (pyLower "your profile feed") ∧
        indicatorCount login_indicators
          (pyLower "your profile feed") ≤ 2) :=
  (C8_verify_authentication_heuristic "https://threads.com/feed"
    "your profile feed").2 (by decide)

/-! ## Claim C7 -/

/-- C7, evaluated at the failing input: with `retry_attempts = 4`,
`delay = 1` and every attempt failing, `_make_request` performs all four
attempts and raises `ScrapingError` (`ok = false`) — those parts of the
claim hold — but the backoff sleeps between failed attempts are
`[1, 2, 3]`, an arithmetic progression (`delay * (attempt + 1)`), not the
exponential backoff announced by the code's own `# Exponential backoff`
comment: the three waits fail the geometric-progression law
`w₀ * w₂ = w₁²`. -/
theorem C7_backoff_linear_not_exponential :
    make_request 4 1 (fun _ => true) = ⟨false, [1, 2, 3]⟩ ∧
    ((make_request 4 1 (fun _ => true)).waits.getD 0 0) *
        ((make_request 4 1 (fun _ => true)).waits.getD 2 0) ≠
      ((make_request 4 1 (fun _ => true)).waits.getD 1 0) ^ 2 := by
  constructor
  · norm_num [make_request, makeRequestLoop, RequestTrace.mk.injEq]
  · norm_num [make_request, makeRequestLoop]

/-! ## Participant-accumulation lemmas -/

theorem add_participant_usernames_nodup (r : LotteryResult) (c : Comment)
    (h : (r.all_participants.map (·.username)).Nodup) :
    ((add_participant r c).all_participants.map (·.username)).Nodup := by
  rw [add_participant]
  by_cases hc : r.all_participants.any (fun p => p.username == c.username)
  · rw [if_pos hc]; exact h
  · rw [if_neg hc]
    simp only [List.map_append, List.map_cons, List.map_nil]
    rw [List.nodup_append]
    refine ⟨h, List.nodup_singleton _, ?_⟩
    intro u hu hu2
    simp only [List.mem_cons, List.not_mem_nil, or_false] at hu2
    subst hu2
    rw [List.mem_map] at hu
    obtain ⟨p, hp, hpu⟩ := hu
    exact hc (List.any_eq_true.mpr ⟨p, hp, by rw [hpu]; exact beq_self_eq_true _⟩)

theorem foldl_add_participant_usernames_nodup (cs : List Comment) :
    ∀ r : LotteryResult, (r.all_participants.map (·.username)).Nodup →
      ((cs.foldl add_participant r).all_participants.map (·.username)).Nodup := by
  induction cs with
  | nil => intro r h; exact h
  | cons c cs ih =>
    intro r h
    exact ih _ (add_participant_usernames_nodup r c h)

theorem add_participant_mem (r : LotteryResult) (c x : Comment)
    (h : x ∈ (add_participant r c).all_participants) :
    x ∈ r.all_participants ∨ x = c := by
  rw [add_participant] at h
  by_cases hc : r.all_participants.any (fun p => p.username == c.username)
  · rw [if_pos hc] at h; exact Or.inl h
  · rw [if_neg hc] at h
    simp only [List.mem_append, List.mem_cons, List.not_mem_nil,
      or_false] at h
    exact h

theorem foldl_add_participant_mem (cs : List Comment) :
    ∀ (r : LotteryResult) (x : Comment),
      x ∈ (cs.foldl add_participant r).all_participants →
        x ∈ r.all_participants ∨ x ∈ cs := by
  induction cs with
  | nil => intro r x h; exact Or.inl h
  | cons c cs ih =>
    intro r x h
    rcases ih _ x h with h | h
    · rcases add_participant_mem r c x h with h | rfl
      · exact Or.inl h
      · exact Or.inr (List.mem_cons_self _ _)
    · exact Or.inr (List.mem_cons_of_mem _ h)

/-! ## Claim C10 -/

/-- An empty base `LotteryResult` as `LotteryEngine.conduct_lottery`
constructs it (mode 2, one winner). -/
def rEmpty : LotteryResult :=
  { mode := .allCommenters, winner_count := 1, keyword := "",
    mention_count_required := 1 }

/-- A raw comment list with two comments by the same username. -/
def csDup : List Comment :=
  [⟨"1", "alice", "first comment"⟩, ⟨"2", "alice", "second comment"⟩,
    ⟨"3", "bob", "hello there"⟩]

/-- C10: after `LotteryResult.conduct_lottery` on a result whose
participants were registered through `add_participant` (starting empty, as
the engine does), `total_comments` is the length of the deduplicated
`all_participants` list and equals `total_participants`, the number of
distinct usernames; on `csDup` (three scraped comments, two distinct
usernames) `total_comments` is 2, not the raw scraped-comment count 3. -/
theorem C10_total_comments_counts_participants (cs : List Comment)
    (r : LotteryResult) (seed : Option Nat) (g : Nat)
    (h : r.all_participants = []) :
    ((conduct_lottery (cs.foldl add_participant r) seed g).total_comments =
        (cs.foldl add_participant r).all_participants.length) ∧
    ((conduct_lottery (cs.foldl add_participant r) seed g).total_comments =
      (conduct_lottery (cs.foldl add_participant r) seed g).total_participants) ∧
    ((conduct_lottery (csDup.foldl add_participant rEmpty) none 0).total_comments
        = 2 ∧ csDup.length = 3) := by
  refine ⟨conduct_lottery_total_comments _ _ _, ?_, by decide⟩
  rw [conduct_lottery_total_comments, conduct_lottery_total_participants]
  have hn : ((cs.foldl add_participant r).all_participants.map
      (·.username)).Nodup := by
    apply foldl_add_participant_usernames_nodup
    rw [h]
    exact List.nodup_nil
  rw [hn.dedup, List.length_map]

/-- Witness for C10 at the concrete duplicate-username list. -/
theorem C10_total_comments_counts_participants_witness :
    ((conduct_lottery (csDup.foldl add_participant rEmpty) none 0).total_comments =
        (csDup.foldl add_participant rEmpty).all_participants.length) ∧
    ((conduct_lottery (csDup.foldl add_participant rEmpty) none 0).total_comments =
      (conduct_lottery (csDup.foldl add_participant rEmpty) none 0).total_participants) ∧
    ((conduct_lottery (csDup.foldl add_participant rEmpty) none 0).total_comments
        = 2 ∧ csDup.length = 3) :=
  C10_total_comments_counts_participants csDup rEmpty none 0 rfl

/-! ## Claim C6 -/

/-- A validation failure makes the engine return the validation error
before consulting the scraping oracle. -/
theorem engine_error_of_invalid (p : EngineParams) (msg : String)
    (hv : validate_parameters p = some msg) :
    ∀ (raw : Except String (List Comment)) (seed : Option Nat) (g : Nat),
      engine_conduct_lottery p raw seed g = .error (.validation msg) := by
  intro raw seed g
  rw [engine_conduct_lottery, hv]

/-- C6: a request with an unsupported URL, a mode outside {"1","2","3"},
`winner_count < 1`, a blank keyword in mode 1, or
`mention_count_required < 1` in mode 3 makes
`LotteryEngine.conduct_lottery` raise a validation `ValueError` whose
outcome is independent of the scraping oracle, the seed and the generator
state — the failure happens before any scraping or network activity, and in
particular `winner_count < 1` never reaches the winner-selection step. -/
theorem C6_validation_fails_fast (p : EngineParams)
    (h : is_supported_url p.url = false ∨ p.mode ∉ ["1", "2", "3"] ∨
      p.winner_count < 1 ∨ (p.mode = "1" ∧ pyStrip p.keyword = "") ∨
      (p.mode = "3" ∧ p.mention_count_required < 1)) :
    ∃ msg, ∀ (raw raw' : Except String (List Comment))
        (seed seed' : Option Nat) (g g' : Nat),
      engine_conduct_lottery p raw seed g = .error (.validation msg) ∧
      engine_conduct_lottery p raw seed g =
        engine_conduct_lottery p raw' seed' g' := by
  have hv : validate_parameters p ≠ none := by
    intro hnone
    rw [validate_parameters] at hnone
    split_ifs at hnone with h1 h2 h3 h4 h5 h6
    rcases h with h | h | h | h | h
    · rw [h] at h2; cases h2
    · exact h h3
    · exact h4 h
    · exact h5 h
    · exact h6 h
  obtain ⟨msg, hv⟩ : ∃ msg, validate_parameters p = some msg := by
    cases hvv : validate_parameters p with
    | none => exact absurd hvv hv
    | some msg => exact ⟨msg, rfl⟩
  refine ⟨msg, fun raw raw' seed seed' g g' => ?_⟩
  rw [engine_error_of_invalid p msg hv raw seed g,
    engine_error_of_invalid p msg hv raw' seed' g']
  exact ⟨rfl, rfl⟩

/-- A request with a supported Threads URL but `winner_count = 0`. -/
def pC6 : EngineParams :=
  ⟨⟨"www.threads.com", "/@user/post/ABC123"⟩, "2", 0, "", 1⟩

/-- Witness for C6: `winner_count = 0` is rejected independent of any
scraping outcome. -/
theorem C6_validation_fails_fast_witness :
    ∃ msg, ∀ (raw raw' : Except String (List Comment))
        (seed seed' : Option Nat) (g g' : Nat),
      engine_conduct_lottery pC6 raw seed g = .error (.validation msg) ∧
      engine_conduct_lottery pC6 raw seed g =
        engine_conduct_lottery pC6 raw' seed' g' :=
  C6_validation_fails_fast pC6 (Or.inr (Or.inr (Or.inl (by decide))))

/-! ## Claim C3 -/

/-- A valid mode-2 request for a reachable Threads post. -/
def pC3 : EngineParams :=
  ⟨⟨"www.threads.com", "/@user/post/ABC123"⟩, "2", 1, "", 1⟩

/-- The result object the engine builds for `pC3` before scraping. -/
def rC3 : LotteryResult :=
  { mode := .allCommenters, winner_count := 1, keyword := "",
    mention_count_required := 1 }

/-- C3 fails on the code: when extraction returns zero comments on a
reachable post, `LotteryEngine.conduct_lottery` raises its explanatory
`ValueError` inside its own `try` block and the blanket `except Exception`
catches it, returning a zeroed `LotteryResult` (`.ok`, winners `[]`) with
no reason attached — the caller sees no error at all, contradicting the
engine docstring (`Raises: ScrapingError / ValueError`) and leaving
`app.py`'s error handlers dead for this case. -/
theorem C3_empty_extraction_not_surfaced :
    engine_conduct_lottery pC3 (.ok []) none 0 = .ok (failedResult rC3) ∧
    (failedResult rC3).winners = [] ∧
    (failedResult rC3).total_comments = 0 := by
  refine ⟨?_, rfl, rfl⟩
  rfl

/-! ## Claim C9 -/

/-- Every comment reachable in a result returned by the engine (as a
participant, eligible participant or winner) comes from the valid-filtered
scrape output. -/
theorem engine_participants_sound (p : EngineParams) (raw : List Comment)
    (seed : Option Nat) (g : Nat) (r : LotteryResult)
    (hrun : engine_conduct_lottery p (.ok raw) seed g = .ok r) :
    ∀ x, (x ∈ r.all_participants ∨ x ∈ r.eligible_participants ∨
        x ∈ r.winners) →
      x ∈ raw.filter is_valid_comment := by
  intro x hx
  rw [engine_conduct_lottery] at hrun
  cases hv : validate_parameters p with
  | some msg => rw [hv] at hrun; cases hrun
  | none =>
    rw [hv] at hrun
    cases hm : LotteryMode.ofString p.mode with
    | none => rw [hm] at hrun; cases hrun
    | some mode =>
      rw [hm] at hrun
      simp only [scrape_comments] at hrun
      by_cases he : (raw.filter is_valid_comment).isEmpty
      · rw [if_pos he] at hrun
        obtain rfl := (Except.ok.injEq _ _).mp hrun
        rcases hx with hx | hx | hx <;> cases hx
      · rw [if_neg he] at hrun
        have hall : ∀ y,
            y ∈ ((raw.filter is_valid_comment).foldl add_participant
              { mode := mode, winner_count := p.winner_count,
                keyword := p.keyword,
                mention_count_required :=
                  p.mention_count_required.toNat }).all_participants →
              y ∈ raw.filter is_valid_comment := by
          intro y hy
          rcases foldl_add_participant_mem _ _ _ hy with hy | hy
          · cases hy
          · exact hy
        set r₁ := (raw.filter is_valid_comment).foldl add_participant
            { mode := mode, winner_count := p.winner_count,
              keyword := p.keyword,
              mention_count_required := p.mention_count_required.toNat }
          with hr₁
        have helig : ∀ y,
            y ∈ (conduct_lottery r₁ seed g).eligible_participants →
              y ∈ raw.filter is_valid_comment := by
          intro y hy
          rw [conduct_lottery_eligible] at hy
          exact hall y (List.mem_of_mem_filter hy)
        have hwin : ∀ y, y ∈ (conduct_lottery r₁ seed g).winners →
            y ∈ raw.filter is_valid_comment := by
          intro y hy
          rw [conduct_lottery_winners] at hy
          by_cases hpos : 0 < min r₁.winner_count
              ((r₁.all_participants.filter (is_eligible r₁)).length : Int)
          · rw [if_pos hpos] at hy
            exact hall y (List.mem_of_mem_filter (pySample_mem _ _ _ _ hy))
          · rw [if_neg hpos] at hy; cases hy
        by_cases hz : (conduct_lottery r₁ seed g).eligible_count = 0
        · rw [if_pos hz] at hrun
          obtain rfl := (Except.ok.injEq _ _).mp hrun
          rcases hx with hx | hx | hx
          · exact hall x hx
          · exact helig x hx
          · cases hx
        · rw [if_neg hz] at hrun
          obtain rfl := (Except.ok.injEq _ _).mp hrun
          rcases hx with hx | hx | hx
          · rw [conduct_lottery_all_participants] at hx
            exact hall x hx
          · exact helig x hx
          · exact hwin x hx

/-- C9: a scraped comment whose username case-insensitively equals one of
the platform/system accounts `instagram`, `threads`, `meta`, `facebook` is
rejected by `_is_valid_comment`, filtered out by `_scrape_comments`, and
therefore never appears among a returned lottery's participants, eligible
participants or winners. -/
theorem C9_platform_accounts_never_participate (p : EngineParams)
    (raw : List Comment) (seed : Option Nat) (g : Nat) (r : LotteryResult)
    (c : Comment)
    (hrun : engine_conduct_lottery p (.ok raw) seed g = .ok r)
    (hc : pyLower c.username ∈ ["instagram", "threads", "meta", "facebook"]) :
    is_valid_comment c = false ∧
    c ∉ raw.filter is_valid_comment ∧
    c ∉ r.all_participants ∧ c ∉ r.eligible_participants ∧
    c ∉ r.winners := by
  have hval : is_valid_comment c = false := by
    rw [is_valid_comment]
    split_ifs with h1 h2
    · rfl
    · rfl
    · rfl
  have hnot : c ∉ raw.filter is_valid_comment := by
    intro hmem
    have := List.of_mem_filter hmem
    rw [hval] at this
    cases this
  refine ⟨hval, hnot, ?_, ?_, ?_⟩
  · exact fun hmem =>
      hnot (engine_participants_sound p raw seed g r hrun c (Or.inl hmem))
  · exact fun hmem =>
      hnot (engine_participants_sound p raw seed g r hrun c
        (Or.inr (Or.inl hmem)))
  · exact fun hmem =>
      hnot (engine_participants_sound p raw seed g r hrun c
        (Or.inr (Or.inr hmem)))

/-- A raw scrape containing a platform account (`Threads`). -/
def rawC9 : List Comment :=
  [⟨"1", "Threads", "system notice here"⟩, ⟨"2", "alice", "great post"⟩,
    ⟨"3", "bob", "count me in"⟩]

/-- The result the engine returns on `rawC9` with seed 5. -/
def rC9 : LotteryResult :=
  { mode := .allCommenters, winner_count := 1, keyword := "",
    mention_count_required := 1,
    winners := [⟨"3", "bob", "count me in"⟩],
    all_participants := [⟨"2", "alice", "great post"⟩,
      ⟨"3", "bob", "count me in"⟩],
    eligible_participants := [⟨"2", "alice", "great post"⟩,
      ⟨"3", "bob", "count me in"⟩],
    total_comments := 2, total_participants := 2, eligible_count := 2 }

/-- Witness for C9: the `Threads` comment from `rawC9` reaches no part of
the returned result. -/
theorem C9_platform_accounts_never_participate_witness :
    is_valid_comment ⟨"1", "Threads", "system notice here"⟩ = false ∧
    (⟨"1", "Threads", "system notice here"⟩ : Comment) ∉
      rawC9.filter is_valid_comment ∧
    (⟨"1", "Threads", "system notice here"⟩ : Comment) ∉
      rC9.all_participants ∧
    (⟨"1", "Threads", "system notice here"⟩ : Comment) ∉
      rC9.eligible_participants ∧
    (⟨"1", "Threads", "system notice here"⟩ : Comment) ∉ rC9.winners :=
  C9_platform_accounts_never_participate pC3 rawC9 (some 5) 0 rC9
    ⟨"1", "Threads", "system notice here"⟩ rfl (by decide)

end LotteryWeb
